import Mathlib

/-!
Verification of the chadbuffer program (src/lib.rs).

The program is a single `entrypoint(input: *mut u8)` over one contiguous
input region.  We model the region as a byte-addressed memory
`Mem := Nat → Nat`; every read masks each cell with `% 256`, reflecting
that real cells are bytes.  Machine-integer reads combine bytes
little-endian; the wrapping `usize` subtractions of the source are modelled
explicitly modulo 2^64.  The host guarantees the input pointer is 8-byte
aligned, so `align_offset` on `input.add(offset)` is modelled as aligning
the region-relative offset itself.  Logging is modelled as a list of the
emitted strings; the return value is the scalar set by `set_return_imm!`
(0 when no failure was signalled, matching the host's default-success
interpretation).
-/

namespace Chadbuffer

/-- Byte-addressed memory: the input region. -/
abbrev Mem := Nat → Nat

/-! Constants, mirroring the `pub const` items of src/lib.rs. -/

def ALIGNMENT : Nat := 0x0008
def PUBKEY_LENGTH : Nat := 0x0020
def SIG_MUT_NODUP : Nat := 0x0101ff
def U24_MASK : Nat := 0xffffff
def SIGNER_HEADER : Nat := 0x0008
def SIGNER_KEY : Nat := 0x0010
def SIGNER_LAMPORTS : Nat := 0x0050
def BUFFER_OWNER : Nat := 0x2890
def BUFFER_SIZE : Nat := 0x28b8
def BUFFER_LAMPORTS : Nat := 0x28b0
def BUFFER_AUTH : Nat := 0x28c0
def BUFFER_DATA : Nat := 0x28e0
def IX_MIN_OFFSET : Nat := 0x50c8

/-- 2^64, the modulus of `usize`/`u64` arithmetic on the target. -/
def U64_MOD : Nat := 2 ^ 64

/-- 2^24; `x & U24_MASK` equals `x % U24_MOD` since the mask is 2^24 - 1. -/
def U24_MOD : Nat := 0x1000000

/-- A `u8` load: one memory cell, masked to a byte. -/
def readU8 (m : Mem) (a : Nat) : Nat := m a % 256

/-- Little-endian read of `n` bytes starting at address `a`. -/
def readLE (m : Mem) (a : Nat) : Nat → Nat
  | 0 => 0
  | n + 1 => readU8 m a + 256 * readLE m (a + 1) n

/-- A `u64` load at address `a` (little-endian). -/
def readU64 (m : Mem) (a : Nat) : Nat := readLE m a 8

/-- A `u32` load at address `a` (little-endian). -/
def readU32 (m : Mem) (a : Nat) : Nat := readLE m a 4

/-- A `u64` store at address `a` (little-endian byte decomposition). -/
def writeU64 (m : Mem) (a v : Nat) : Mem := fun x =>
  if a ≤ x ∧ x < a + 8 then v / 256 ^ (x - a) % 256 else m x

/-- `sol_memcpy(dst, src, n)`: the `n` cells at `dst` take the source's
prior values; all other cells are untouched. -/
def memcpy (m : Mem) (dst src n : Nat) : Mem := fun x =>
  if dst ≤ x ∧ x < dst + n then m (src + (x - dst)) else m x

/-- Store the byte `v` into the `n` cells starting at `dst`
(the `write_volatile` of `[0u8; 32]` in Close). -/
def memset (m : Mem) (dst v n : Nat) : Mem := fun x =>
  if dst ≤ x ∧ x < dst + n then v else m x

/-- Wrapping `usize` subtraction (the source's release-mode `-=`). -/
def wsub (a b : Nat) : Nat := (a + (U64_MOD - b)) % U64_MOD

/-- `sol_memcmp(buffer_authority, signer, PUBKEY_LENGTH) == 0`: the 32
authority bytes equal the 32 signer-key bytes. -/
def authMatch (m : Mem) : Bool :=
  decide (∀ i, i < PUBKEY_LENGTH → readU8 m (BUFFER_AUTH + i) = readU8 m (SIGNER_KEY + i))

/-- Offset of the instruction region: `IX_MIN_OFFSET` plus the buffer's
stored length, then `align_offset(ALIGNMENT)` padding (lines 65-67). -/
def ixBase (m : Mem) : Nat :=
  let o := IX_MIN_OFFSET + readU64 m BUFFER_SIZE
  o + (ALIGNMENT - o % ALIGNMENT) % ALIGNMENT

/-- The 8-byte instruction-data length scalar, read at `ixBase` (line 70). -/
def ixDataSize (m : Mem) : Nat := readU64 m (ixBase m)

/-- The 1-byte discriminator, read right after the length scalar (line 74). -/
def discr (m : Mem) : Nat := readU8 m (ixBase m + 8)

/-- Offset of the instruction payload: just past the discriminator. -/
def payloadOff (m : Mem) : Nat := ixBase m + 9

/-- Init (discriminator 0, lines 99-106): copy the signer key into the
buffer authority, then copy `ix_data_size - 1` payload bytes (the payload
minus the discriminator) into the buffer data region. -/
def initEffect (m : Mem) : Mem :=
  memcpy (memcpy m BUFFER_AUTH SIGNER_KEY PUBKEY_LENGTH)
    BUFFER_DATA (payloadOff m) (wsub (ixDataSize m) 1)

/-- Assign (discriminator 1, lines 108-112): copy a 32-byte key from the
payload into the buffer authority. -/
def assignEffect (m : Mem) : Mem :=
  memcpy m BUFFER_AUTH (payloadOff m) PUBKEY_LENGTH

/-- Write (discriminator 2, lines 114-126): read a u64 at the payload
start, mask to 24 bits, use it as an offset into the buffer data region,
and copy `ix_data_size - 4` bytes from the rest of the payload there. -/
def writeEffect (m : Mem) : Mem :=
  let dataOffset := readU64 m (payloadOff m) % U24_MOD
  memcpy m (BUFFER_DATA + dataOffset) (payloadOff m + 3) (wsub (ixDataSize m) 4)

/-- Close (discriminator 3, lines 128-140): add the buffer's lamports to
the signer's (wrapping u64 add), zero the buffer's lamports and stored
size, and zero the 32-byte owner field. -/
def closeEffect (m : Mem) : Mem :=
  let lamportsBuffer := readU64 m BUFFER_LAMPORTS
  let m1 := writeU64 m SIGNER_LAMPORTS
    ((readU64 m SIGNER_LAMPORTS + lamportsBuffer) % U64_MOD)
  let m2 := writeU64 m1 BUFFER_LAMPORTS 0
  let m3 := writeU64 m2 BUFFER_SIZE 0
  memset m3 BUFFER_OWNER 0 PUBKEY_LENGTH

/-- The program entrypoint (lines 42-146): returns the final memory, the
return code (0 = success, 1 = failure), and the log lines emitted. -/
def entrypoint (m : Mem) : Mem × Nat × List String :=
  if readU8 m 0 ≠ 2 then (m, 1, ["Wrong number of accounts"])
  else if readU32 m SIGNER_HEADER ≠ SIG_MUT_NODUP then (m, 1, ["Missing signer"])
  else if 0 < discr m ∧ authMatch m = false then (m, 1, ["Invalid authority"])
  else if discr m = 0 then (initEffect m, 0, ["Init"])
  else if discr m = 1 then (assignEffect m, 0, ["Assign"])
  else if discr m = 2 then (writeEffect m, 0, ["Write"])
  else if discr m = 3 then (closeEffect m, 0, ["Close"])
  else (m, 1, ["Invalid IX"])

/-- The instruction-region offset as the spec words it: the minimum offset
plus the stored length, rounded up to the next 8-byte alignment boundary
(the least multiple of 8 that is not below it). -/
def specAlignedOffset (n : Nat) : Nat := (n + 7) / 8 * 8

/-! Concrete input regions used to exercise the theorems.  Unlisted
addresses hold 0. -/

/-- The spec §8 Init example: account count 2, valid signer flags, signer
key bytes 7, stored length 0, instruction `[len=4] [0x00, 0xAA, 0xBB, 0xCC]`. -/
def mInit : Mem := fun a =>
  if a = 0 then 2
  else if a = 8 then 0xff else if a = 9 then 1 else if a = 10 then 1
  else if 0x10 ≤ a ∧ a < 0x30 then 7
  else if a = 0x50c8 then 4
  else if a = 0x50d1 then 0xAA else if a = 0x50d2 then 0xBB
  else if a = 0x50d3 then 0xCC
  else 0

/-- An Assign invocation: signer key and stored authority both 5, stored
length 0, instruction `[len=33] [0x01, 32 bytes of 0x42]`. -/
def mAssign : Mem := fun a =>
  if a = 0 then 2
  else if a = 8 then 0xff else if a = 9 then 1 else if a = 10 then 1
  else if 0x10 ≤ a ∧ a < 0x30 then 5
  else if 0x28c0 ≤ a ∧ a < 0x28e0 then 5
  else if a = 0x50c8 then 33
  else if a = 0x50d0 then 1
  else if 0x50d1 ≤ a ∧ a < 0x50f1 then 0x42
  else 0

/-- The spec §8 Write example: matching authority, stored length 8 (data
bytes 0x11), instruction `[len=6] [0x02, 0x00, 0x00, 0x00, 0xFF, 0xFF]`. -/
def mWrite : Mem := fun a =>
  if a = 0 then 2
  else if a = 8 then 0xff else if a = 9 then 1 else if a = 10 then 1
  else if 0x10 ≤ a ∧ a < 0x30 then 5
  else if a = 0x28b8 then 8
  else if 0x28c0 ≤ a ∧ a < 0x28e0 then 5
  else if 0x28e0 ≤ a ∧ a < 0x28e8 then 0x11
  else if a = 0x50d0 then 6
  else if a = 0x50d8 then 2
  else if a = 0x50dc ∨ a = 0x50dd then 0xff
  else 0

/-- A Close invocation: matching authority (bytes 5), signer lamports 100,
buffer lamports 7, owner bytes 9, stored length 0, instruction
`[len=1] [0x03]`. -/
def mClose : Mem := fun a =>
  if a = 0 then 2
  else if a = 8 then 0xff else if a = 9 then 1 else if a = 10 then 1
  else if 0x10 ≤ a ∧ a < 0x30 then 5
  else if a = 0x50 then 100
  else if 0x2890 ≤ a ∧ a < 0x28b0 then 9
  else if a = 0x28b0 then 7
  else if 0x28c0 ≤ a ∧ a < 0x28e0 then 5
  else if a = 0x50c8 then 1
  else if a = 0x50d0 then 3
  else 0

/-- A Close invocation whose lamport sum overflows u64: signer lamports
2^64 - 1 (all bytes 0xff), buffer lamports 5. -/
def mOverflow : Mem := fun a =>
  if a = 0 then 2
  else if a = 8 then 0xff else if a = 9 then 1 else if a = 10 then 1
  else if 0x10 ≤ a ∧ a < 0x30 then 5
  else if 0x50 ≤ a ∧ a < 0x58 then 0xff
  else if a = 0x28b0 then 5
  else if 0x28c0 ≤ a ∧ a < 0x28e0 then 5
  else if a = 0x50c8 then 1
  else if a = 0x50d0 then 3
  else 0

/-- An input region whose 8-byte account count is 258 (bytes 2, 1, 0, ...),
with valid signer flags, signer key bytes 7, zero stored authority, and an
Init instruction `[len=1] [0x00]`. -/
def mCount258 : Mem := fun a =>
  if a = 0 then 2 else if a = 1 then 1
  else if a = 8 then 0xff else if a = 9 then 1 else if a = 10 then 1
  else if 0x10 ≤ a ∧ a < 0x30 then 7
  else if a = 0x50c8 then 1
  else 0

/-- An input region whose account-count byte is 3. -/
def mCount3 : Mem := fun a => if a = 0 then 3 else 0

/-- A guard-passing invocation with discriminator 9 (signer key and stored
authority both all-zero, hence matching). -/
def mInvalid : Mem := fun a =>
  if a = 0 then 2
  else if a = 8 then 0xff else if a = 9 then 1 else if a = 10 then 1
  else if a = 0x50c8 then 1
  else if a = 0x50d0 then 9
  else 0

/-! Basic lemmas about the memory primitives. -/

theorem readU8_lt (m : Mem) (a : Nat) : readU8 m a < 256 :=
  Nat.mod_lt _ (by decide)

theorem readLE_lt (m : Mem) (a : Nat) : ∀ n, readLE m a n < 256 ^ n
  | 0 => by simp [readLE]
  | n + 1 => by
    have h1 := readU8_lt m a
    have h2 := readLE_lt m (a + 1) n
    calc readU8 m a + 256 * readLE m (a + 1) n
        ≤ 255 + 256 * (256 ^ n - 1) := by
          have : readLE m (a + 1) n ≤ 256 ^ n - 1 := by omega
          have := Nat.mul_le_mul_left 256 this
          omega
      _ < 256 ^ (n + 1) := by
          have : 1 ≤ 256 ^ n := Nat.one_le_pow _ _ (by decide)
          rw [pow_succ]
          have := Nat.mul_le_mul_left 256 this
          omega

theorem readU64_lt (m : Mem) (a : Nat) : readU64 m a < U64_MOD := by
  have := readLE_lt m a 8
  simpa [readU64, U64_MOD] using this

theorem readLE_congr {m m' : Mem} {a : Nat} :
    ∀ {n : Nat}, (∀ i, i < n → m' (a + i) = m (a + i)) →
      readLE m' a n = readLE m a n := by
  intro n
  induction n generalizing a with
  | zero => intro _; rfl
  | succ k ih =>
    intro h
    have h0 : m' a = m a := by have := h 0 (by omega); simpa using this
    have hrest : ∀ i, i < k → m' (a + 1 + i) = m (a + 1 + i) := by
      intro i hi
      have := h (i + 1) (by omega)
      simpa [Nat.add_assoc, Nat.add_comm 1 i] using this
    simp [readLE, readU8, h0, ih hrest]

theorem readU64_congr {m m' : Mem} {a : Nat}
    (h : ∀ i, i < 8 → m' (a + i) = m (a + i)) :
    readU64 m' a = readU64 m a :=
  readLE_congr h

theorem readU32_congr {m m' : Mem} {a : Nat}
    (h : ∀ i, i < 4 → m' (a + i) = m (a + i)) :
    readU32 m' a = readU32 m a :=
  readLE_congr h

theorem readLE_bytes {m : Mem} {a v : Nat} :
    ∀ {n : Nat}, (∀ i, i < n → m (a + i) = v / 256 ^ i % 256) →
      readLE m a n = v % 256 ^ n := by
  intro n
  induction n generalizing a v with
  | zero => intro _; simp [readLE, Nat.mod_one]
  | succ k ih =>
    intro h
    have h0 : m a = v % 256 := by have := h 0 (by omega); simpa using this
    have hrest : ∀ i, i < k → m (a + 1 + i) = v / 256 / 256 ^ i % 256 := by
      intro i hi
      have hh := h (i + 1) (by omega)
      rw [show a + (i + 1) = a + 1 + i from by omega] at hh
      rw [hh, pow_succ, Nat.mul_comm (256 ^ i) 256, ← Nat.div_div_eq_div_mul]
    have hr : readLE m (a + 1) k = v / 256 % 256 ^ k := ih hrest
    simp only [readLE, readU8, h0, hr]
    rw [Nat.mod_mod_of_dvd v (dvd_refl 256), pow_succ,
      Nat.mul_comm (256 ^ k) 256, Nat.mod_mul]

theorem readLE_mod (m : Mem) :
    ∀ {k n : Nat} {a : Nat}, k ≤ n → readLE m a n % 256 ^ k = readLE m a k := by
  intro k
  induction k with
  | zero => intro n a _; simp [readLE, Nat.mod_one]
  | succ j ih =>
    intro n a hk
    obtain ⟨n', rfl⟩ : ∃ n', n = n' + 1 := ⟨n - 1, by omega⟩
    have hx8 : readU8 m a < 256 := readU8_lt m a
    have hmod : (readU8 m a + 256 * readLE m (a + 1) n') % 256 = readU8 m a := by
      rw [Nat.add_mul_mod_self_left, Nat.mod_eq_of_lt hx8]
    have hdiv : (readU8 m a + 256 * readLE m (a + 1) n') / 256 = readLE m (a + 1) n' := by
      rw [Nat.add_mul_div_left _ _ (by norm_num), Nat.div_eq_of_lt hx8, Nat.zero_add]
    calc readLE m a (n' + 1) % 256 ^ (j + 1)
        = (readU8 m a + 256 * readLE m (a + 1) n') % (256 * 256 ^ j) := by
          rw [pow_succ, Nat.mul_comm (256 ^ j) 256]; rfl
      _ = readU8 m a + 256 * (readLE m (a + 1) n' % 256 ^ j) := by
          rw [Nat.mod_mul, hmod, hdiv]
      _ = readU8 m a + 256 * readLE m (a + 1) j := by rw [ih (by omega)]
      _ = readLE m a (j + 1) := rfl

theorem writeU64_in {m : Mem} {a v i : Nat} (h : i < 8) :
    writeU64 m a v (a + i) = v / 256 ^ i % 256 := by
  simp only [writeU64]
  rw [if_pos (by omega), show a + i - a = i from by omega]

theorem writeU64_out {m : Mem} {a v x : Nat} (h : x < a ∨ a + 8 ≤ x) :
    writeU64 m a v x = m x := by
  simp only [writeU64]
  rw [if_neg (by omega)]

theorem readU64_writeU64 (m : Mem) (a v : Nat) :
    readU64 (writeU64 m a v) a = v % U64_MOD := by
  have : ∀ i, i < 8 → writeU64 m a v (a + i) = v / 256 ^ i % 256 :=
    fun i hi => writeU64_in hi
  have := readLE_bytes (m := writeU64 m a v) (a := a) (v := v) (n := 8) this
  simpa [readU64, U64_MOD] using this

theorem memcpy_in {m : Mem} {dst src n i : Nat} (h : i < n) :
    memcpy m dst src n (dst + i) = m (src + i) := by
  simp only [memcpy]
  rw [if_pos (by omega)]
  congr 1
  omega

theorem memcpy_out {m : Mem} {dst src n x : Nat} (h : x < dst ∨ dst + n ≤ x) :
    memcpy m dst src n x = m x := by
  simp only [memcpy]
  rw [if_neg (by omega)]

theorem memset_in {m : Mem} {dst v n i : Nat} (h : i < n) :
    memset m dst v n (dst + i) = v := by
  simp only [memset]
  rw [if_pos (by omega)]

theorem memset_out {m : Mem} {dst v n x : Nat} (h : x < dst ∨ dst + n ≤ x) :
    memset m dst v n x = m x := by
  simp only [memset]
  rw [if_neg (by omega)]

theorem wsub_eq {a b : Nat} (hb : b ≤ a) (ha : a < U64_MOD) :
    wsub a b = a - b := by
  simp only [wsub, U64_MOD] at *
  omega

/-! Characterization of each branch of the entrypoint. -/

theorem entrypoint_count_fail {m : Mem} (h : readU8 m 0 ≠ 2) :
    entrypoint m = (m, 1, ["Wrong number of accounts"]) := by
  simp [entrypoint, h]

theorem entrypoint_flags_fail {m : Mem} (h0 : readU8 m 0 = 2)
    (h1 : readU32 m SIGNER_HEADER ≠ SIG_MUT_NODUP) :
    entrypoint m = (m, 1, ["Missing signer"]) := by
  simp [entrypoint, h0, h1]

theorem entrypoint_auth_fail {m : Mem} (h0 : readU8 m 0 = 2)
    (h1 : readU32 m SIGNER_HEADER = SIG_MUT_NODUP)
    (hd : 0 < discr m) (ha : authMatch m = false) :
    entrypoint m = (m, 1, ["Invalid authority"]) := by
  simp [entrypoint, h0, h1, ha]
  omega

theorem entrypoint_init {m : Mem} (h0 : readU8 m 0 = 2)
    (h1 : readU32 m SIGNER_HEADER = SIG_MUT_NODUP) (hd : discr m = 0) :
    entrypoint m = (initEffect m, 0, ["Init"]) := by
  simp [entrypoint, h0, h1, hd]

theorem entrypoint_assign {m : Mem} (h0 : readU8 m 0 = 2)
    (h1 : readU32 m SIGNER_HEADER = SIG_MUT_NODUP)
    (hd : discr m = 1) (ha : authMatch m = true) :
    entrypoint m = (assignEffect m, 0, ["Assign"]) := by
  simp [entrypoint, h0, h1, hd, ha]

theorem entrypoint_write_branch {m : Mem} (h0 : readU8 m 0 = 2)
    (h1 : readU32 m SIGNER_HEADER = SIG_MUT_NODUP)
    (hd : discr m = 2) (ha : authMatch m = true) :
    entrypoint m = (writeEffect m, 0, ["Write"]) := by
  simp [entrypoint, h0, h1, hd, ha]

theorem entrypoint_close {m : Mem} (h0 : readU8 m 0 = 2)
    (h1 : readU32 m SIGNER_HEADER = SIG_MUT_NODUP)
    (hd : discr m = 3) (ha : authMatch m = true) :
    entrypoint m = (closeEffect m, 0, ["Close"]) := by
  simp [entrypoint, h0, h1, hd, ha]

theorem entrypoint_invalid {m : Mem} (h0 : readU8 m 0 = 2)
    (h1 : readU32 m SIGNER_HEADER = SIG_MUT_NODUP)
    (hd : 4 ≤ discr m) (ha : authMatch m = true) :
    entrypoint m = (m, 1, ["Invalid IX"]) := by
  have e0 : discr m ≠ 0 := by omega
  have e1 : discr m ≠ 1 := by omega
  have e2 : discr m ≠ 2 := by omega
  have e3 : discr m ≠ 3 := by omega
  simp [entrypoint, h0, h1, ha, e0, e1, e2, e3]

theorem authMatch_iff {m : Mem} :
    authMatch m = true ↔
      ∀ i, i < PUBKEY_LENGTH → readU8 m (BUFFER_AUTH + i) = readU8 m (SIGNER_KEY + i) := by
  simp [authMatch]

theorem ixDataSize_lt (m : Mem) : ixDataSize m < U64_MOD :=
  readU64_lt m (ixBase m)

theorem le_ixBase (m : Mem) : IX_MIN_OFFSET ≤ ixBase m := by
  simp only [ixBase, IX_MIN_OFFSET, ALIGNMENT]
  omega

/-! Pointwise description of the Close effect. -/

theorem closeEffect_signer_byte (m : Mem) {i : Nat} (h : i < 8) :
    closeEffect m (SIGNER_LAMPORTS + i) =
      (readU64 m SIGNER_LAMPORTS + readU64 m BUFFER_LAMPORTS) % U64_MOD / 256 ^ i % 256 := by
  simp only [closeEffect]
  rw [memset_out (Or.inl (by simp only [SIGNER_LAMPORTS, BUFFER_OWNER]; omega)),
    writeU64_out (Or.inl (by simp only [SIGNER_LAMPORTS, BUFFER_SIZE]; omega)),
    writeU64_out (Or.inl (by simp only [SIGNER_LAMPORTS, BUFFER_LAMPORTS]; omega)),
    writeU64_in h]

theorem closeEffect_signer_lamports (m : Mem) :
    readU64 (closeEffect m) SIGNER_LAMPORTS =
      (readU64 m SIGNER_LAMPORTS + readU64 m BUFFER_LAMPORTS) % U64_MOD := by
  have hb : ∀ i, i < 8 → closeEffect m (SIGNER_LAMPORTS + i) =
      (readU64 m SIGNER_LAMPORTS + readU64 m BUFFER_LAMPORTS) % U64_MOD / 256 ^ i % 256 :=
    fun i hi => closeEffect_signer_byte m hi
  have hr := readLE_bytes (m := closeEffect m) (a := SIGNER_LAMPORTS)
    (v := (readU64 m SIGNER_LAMPORTS + readU64 m BUFFER_LAMPORTS) % U64_MOD) (n := 8) hb
  have hlt : (readU64 m SIGNER_LAMPORTS + readU64 m BUFFER_LAMPORTS) % U64_MOD < 256 ^ 8 := by
    have h0 : 0 < U64_MOD := by decide
    have := Nat.mod_lt (readU64 m SIGNER_LAMPORTS + readU64 m BUFFER_LAMPORTS) h0
    simpa [U64_MOD] using this
  rw [readU64, hr, Nat.mod_eq_of_lt hlt]

theorem closeEffect_buffer_lamports (m : Mem) :
    readU64 (closeEffect m) BUFFER_LAMPORTS = 0 := by
  have hb : ∀ i, i < 8 → closeEffect m (BUFFER_LAMPORTS + i) = 0 / 256 ^ i % 256 := by
    intro i hi
    simp only [closeEffect]
    rw [memset_out (Or.inr (by simp only [BUFFER_LAMPORTS, BUFFER_OWNER, PUBKEY_LENGTH]; omega)),
      writeU64_out (Or.inl (by simp only [BUFFER_LAMPORTS, BUFFER_SIZE]; omega)),
      writeU64_in hi]
  have hr := readLE_bytes (m := closeEffect m) (a := BUFFER_LAMPORTS) (v := 0) (n := 8) hb
  rw [readU64, hr, Nat.zero_mod]

theorem closeEffect_size (m : Mem) :
    readU64 (closeEffect m) BUFFER_SIZE = 0 := by
  have hb : ∀ i, i < 8 → closeEffect m (BUFFER_SIZE + i) = 0 / 256 ^ i % 256 := by
    intro i hi
    simp only [closeEffect]
    rw [memset_out (Or.inr (by simp only [BUFFER_SIZE, BUFFER_OWNER, PUBKEY_LENGTH]; omega)),
      writeU64_in hi]
  have hr := readLE_bytes (m := closeEffect m) (a := BUFFER_SIZE) (v := 0) (n := 8) hb
  rw [readU64, hr, Nat.zero_mod]

theorem closeEffect_owner (m : Mem) {i : Nat} (h : i < PUBKEY_LENGTH) :
    closeEffect m (BUFFER_OWNER + i) = 0 := by
  simp only [closeEffect]
  rw [memset_in h]

theorem closeEffect_frame (m : Mem) {x : Nat}
    (h1 : x < SIGNER_LAMPORTS ∨ SIGNER_LAMPORTS + 8 ≤ x)
    (h2 : x < BUFFER_OWNER ∨ BUFFER_AUTH ≤ x) :
    closeEffect m x = m x := by
  simp only [SIGNER_LAMPORTS, BUFFER_OWNER, BUFFER_AUTH] at h1 h2
  simp only [closeEffect]
  have c1 : x < BUFFER_OWNER ∨ BUFFER_OWNER + PUBKEY_LENGTH ≤ x := by
    simp only [BUFFER_OWNER, PUBKEY_LENGTH]; omega
  have c2 : x < BUFFER_SIZE ∨ BUFFER_SIZE + 8 ≤ x := by
    simp only [BUFFER_SIZE]; omega
  have c3 : x < BUFFER_LAMPORTS ∨ BUFFER_LAMPORTS + 8 ≤ x := by
    simp only [BUFFER_LAMPORTS]; omega
  have c4 : x < SIGNER_LAMPORTS ∨ SIGNER_LAMPORTS + 8 ≤ x := by
    simp only [SIGNER_LAMPORTS]; omega
  rw [memset_out c1, writeU64_out c2, writeU64_out c3, writeU64_out c4]

/-! Pointwise description of the Init effect. -/

theorem initEffect_auth (m : Mem) {i : Nat} (h : i < PUBKEY_LENGTH) :
    initEffect m (BUFFER_AUTH + i) = m (SIGNER_KEY + i) := by
  simp only [initEffect]
  rw [memcpy_out (Or.inl (by simp only [BUFFER_AUTH, BUFFER_DATA, PUBKEY_LENGTH] at h ⊢; omega)),
    memcpy_in h]

theorem initEffect_data (m : Mem) (hsz : 1 ≤ ixDataSize m) {i : Nat}
    (h : i < ixDataSize m - 1) :
    initEffect m (BUFFER_DATA + i) = m (payloadOff m + i) := by
  have hpl : BUFFER_AUTH + PUBKEY_LENGTH ≤ payloadOff m + i := by
    have := le_ixBase m
    simp only [payloadOff, BUFFER_AUTH, PUBKEY_LENGTH, IX_MIN_OFFSET] at *
    omega
  simp only [initEffect]
  rw [wsub_eq hsz (ixDataSize_lt m), memcpy_in h, memcpy_out (Or.inr hpl)]

theorem initEffect_frame_low (m : Mem) {x : Nat} (h : x < BUFFER_AUTH) :
    initEffect m x = m x := by
  simp only [initEffect]
  rw [memcpy_out (Or.inl (by simp only [BUFFER_AUTH, BUFFER_DATA] at h ⊢; omega)),
    memcpy_out (Or.inl h)]

theorem initEffect_frame_high (m : Mem) (hsz : 1 ≤ ixDataSize m) {x : Nat}
    (h : BUFFER_DATA + (ixDataSize m - 1) ≤ x) :
    initEffect m x = m x := by
  simp only [initEffect]
  rw [wsub_eq hsz (ixDataSize_lt m), memcpy_out (Or.inr h),
    memcpy_out (Or.inr (by simp only [BUFFER_AUTH, BUFFER_DATA, PUBKEY_LENGTH] at h ⊢; omega))]

/-! Pointwise description of the Write effect. -/

theorem writeEffect_data (m : Mem) (hsz : 4 ≤ ixDataSize m) {i : Nat}
    (h : i < ixDataSize m - 4) :
    writeEffect m (BUFFER_DATA + readU64 m (payloadOff m) % U24_MOD + i) =
      m (payloadOff m + 3 + i) := by
  simp only [writeEffect]
  rw [wsub_eq hsz (ixDataSize_lt m), memcpy_in h]

theorem writeEffect_frame_low (m : Mem) {x : Nat}
    (h : x < BUFFER_DATA + readU64 m (payloadOff m) % U24_MOD) :
    writeEffect m x = m x := by
  simp only [writeEffect]
  rw [memcpy_out (Or.inl h)]

theorem writeEffect_frame_high (m : Mem) (hsz : 4 ≤ ixDataSize m) {x : Nat}
    (h : BUFFER_DATA + readU64 m (payloadOff m) % U24_MOD + (ixDataSize m - 4) ≤ x) :
    writeEffect m x = m x := by
  simp only [writeEffect]
  rw [wsub_eq hsz (ixDataSize_lt m), memcpy_out (Or.inr h)]

/-! The claims. -/

/-- Claim C1: for every invocation passing the account-count and
signer-flags guards whose discriminator is 1 (Assign), 2 (Write) or
3 (Close), if the signer key is not byte-for-byte equal to the stored
authority then the return code is 1 (failure) and no byte of memory is
mutated; if the keys are equal, the corresponding operation's effect
occurs with return code 0. -/
theorem claim_C1_authority_gate (m : Mem) (h0 : readU8 m 0 = 2)
    (h1 : readU32 m SIGNER_HEADER = SIG_MUT_NODUP)
    (hd : discr m = 1 ∨ discr m = 2 ∨ discr m = 3) :
    (authMatch m = false → entrypoint m = (m, 1, ["Invalid authority"])) ∧
    (authMatch m = true →
      entrypoint m =
        if discr m = 1 then (assignEffect m, 0, ["Assign"])
        else if discr m = 2 then (writeEffect m, 0, ["Write"])
        else (closeEffect m, 0, ["Close"])) := by
  constructor
  · intro ha
    exact entrypoint_auth_fail h0 h1 (by omega) ha
  · intro ha
    rcases hd with hd | hd | hd
    · rw [if_pos hd]
      exact entrypoint_assign h0 h1 hd ha
    · rw [if_neg (by omega), if_pos hd]
      exact entrypoint_write_branch h0 h1 hd ha
    · rw [if_neg (by omega), if_neg (by omega)]
      exact entrypoint_close h0 h1 hd ha

/-- Witness for C1: a concrete Assign invocation with matching authority
takes the Assign effect with return code 0. -/
theorem claim_C1_witness :
    entrypoint mAssign = (assignEffect mAssign, 0, ["Assign"]) := by
  have h := (claim_C1_authority_gate mAssign (by decide) (by decide)
    (Or.inl (by decide))).2 (by decide)
  rw [if_pos (by decide)] at h
  exact h

/-- Counterexample to C2 as stated: an input region whose 8-byte account
count is 258 (not 2) still reaches the dispatcher, returns success, and
mutates the buffer authority, because the code inspects only the byte at
offset 0. -/
theorem claim_C2_counterexample :
    readU64 mCount258 0 ≠ 2 ∧ (entrypoint mCount258).2.1 = 0 ∧
    (entrypoint mCount258).1 BUFFER_AUTH ≠ mCount258 BUFFER_AUTH := by
  decide

/-- Claim C2 (amended): for every input region whose account-count byte at
offset 0 is not 2, the dispatcher never runs: the failure code is set and
no memory is mutated, with no other field read first.  (The code compares
only the least-significant byte of the 8-byte account-count field.) -/
theorem claim_C2_count_guard (m : Mem) (h : readU8 m 0 ≠ 2) :
    entrypoint m = (m, 1, ["Wrong number of accounts"]) :=
  entrypoint_count_fail h

/-- Witness for the amended C2: a region with account-count byte 3 is
rejected untouched. -/
theorem claim_C2_witness :
    readU8 mCount3 0 ≠ 2 ∧
    entrypoint mCount3 = (mCount3, 1, ["Wrong number of accounts"]) :=
  ⟨by decide, claim_C2_count_guard mCount3 (by decide)⟩

/-- Claim C3: for every guard-passing invocation with discriminator 0
(Init), regardless of the prior authority value, the operation succeeds
(return code 0), the buffer authority becomes the signer key, the first
`ixDataSize - 1` buffer-data bytes become the payload minus its leading
discriminator byte, and nothing else changes (so reading buffer data
yields exactly the payload minus the discriminator). -/
theorem claim_C3_init_postcondition (m : Mem) (h0 : readU8 m 0 = 2)
    (h1 : readU32 m SIGNER_HEADER = SIG_MUT_NODUP)
    (hd : discr m = 0) (hsz : 1 ≤ ixDataSize m) :
    (entrypoint m).2.1 = 0 ∧
    (∀ i, i < PUBKEY_LENGTH →
      (entrypoint m).1 (BUFFER_AUTH + i) = m (SIGNER_KEY + i)) ∧
    (∀ i, i < ixDataSize m - 1 →
      (entrypoint m).1 (BUFFER_DATA + i) = m (payloadOff m + i)) ∧
    (∀ x, x < BUFFER_AUTH → (entrypoint m).1 x = m x) ∧
    (∀ x, BUFFER_DATA + (ixDataSize m - 1) ≤ x → (entrypoint m).1 x = m x) := by
  rw [entrypoint_init h0 h1 hd]
  exact ⟨rfl, fun i hi => initEffect_auth m hi, fun i hi => initEffect_data m hsz hi,
    fun x hx => initEffect_frame_low m hx, fun x hx => initEffect_frame_high m hsz hx⟩

/-- Witness for C3: the spec §8 Init example (payload 0x00 0xAA 0xBB 0xCC)
ends with buffer data 0xAA 0xBB 0xCC and authority equal to the signer
key byte 7. -/
theorem claim_C3_witness :
    (entrypoint mInit).2.1 = 0 ∧
    (entrypoint mInit).1 (BUFFER_DATA + 0) = 0xAA ∧
    (entrypoint mInit).1 (BUFFER_DATA + 1) = 0xBB ∧
    (entrypoint mInit).1 (BUFFER_DATA + 2) = 0xCC ∧
    (entrypoint mInit).1 (BUFFER_AUTH + 0) = 7 := by
  have h := claim_C3_init_postcondition mInit (by decide) (by decide)
    (by decide) (by decide)
  refine ⟨h.1, ?_, ?_, ?_, ?_⟩
  · rw [h.2.2.1 0 (by decide)]; decide
  · rw [h.2.2.1 1 (by decide)]; decide
  · rw [h.2.2.1 2 (by decide)]; decide
  · rw [h.2.1 0 (by decide)]; decide

/-- Claim C4: for every guard-passing Write invocation (discriminator 2)
with matching authority, payload offset `o` (the u64 read at the payload
start masked to 24 bits, which equals the 3-byte little-endian value
there) and instruction-data length `n ≥ 4`, the return code is 0, exactly
the buffer-data bytes in `[o, o + (n - 4))` are overwritten with the
trailing payload bytes, and every byte below the write window (including
the whole signer record, buffer owner, lamports, stored length and
authority) and every byte at or above its end is unchanged. -/
theorem claim_C4_write_frame (m : Mem) (h0 : readU8 m 0 = 2)
    (h1 : readU32 m SIGNER_HEADER = SIG_MUT_NODUP)
    (hd : discr m = 2) (ha : authMatch m = true)
    (hsz : 4 ≤ ixDataSize m) :
    (entrypoint m).2.1 = 0 ∧
    readU64 m (payloadOff m) % U24_MOD = readLE m (payloadOff m) 3 ∧
    (∀ i, i < ixDataSize m - 4 →
      (entrypoint m).1 (BUFFER_DATA + readU64 m (payloadOff m) % U24_MOD + i) =
        m (payloadOff m + 3 + i)) ∧
    (∀ x, x < BUFFER_DATA + readU64 m (payloadOff m) % U24_MOD →
      (entrypoint m).1 x = m x) ∧
    (∀ x, BUFFER_DATA + readU64 m (payloadOff m) % U24_MOD + (ixDataSize m - 4) ≤ x →
      (entrypoint m).1 x = m x) ∧
    (∀ i, i < PUBKEY_LENGTH →
      (entrypoint m).1 (BUFFER_AUTH + i) = m (BUFFER_AUTH + i)) := by
  have hmask : readU64 m (payloadOff m) % U24_MOD = readLE m (payloadOff m) 3 := by
    rw [show U24_MOD = 256 ^ 3 from by decide]
    exact readLE_mod m (by omega)
  rw [entrypoint_write_branch h0 h1 hd ha]
  simp only []
  refine ⟨trivial, hmask, fun i hi => writeEffect_data m hsz hi,
    fun x hx => writeEffect_frame_low m hx,
    fun x hx => writeEffect_frame_high m hsz hx, fun i hi => ?_⟩
  refine writeEffect_frame_low m ?_
  simp only [BUFFER_AUTH, BUFFER_DATA, PUBKEY_LENGTH] at hi ⊢
  omega

/-- Witness for C4: the spec §8 Write example (offset 0, two payload bytes
0xFF) overwrites exactly buffer-data bytes 0 and 1; byte 2 keeps its old
value 0x11 and the authority byte is untouched. -/
theorem claim_C4_witness :
    (entrypoint mWrite).2.1 = 0 ∧
    (entrypoint mWrite).1 (BUFFER_DATA + 0) = 0xff ∧
    (entrypoint mWrite).1 (BUFFER_DATA + 1) = 0xff ∧
    (entrypoint mWrite).1 (BUFFER_DATA + 2) = 0x11 ∧
    (entrypoint mWrite).1 (BUFFER_AUTH + 0) = 5 := by
  have h := claim_C4_write_frame mWrite (by decide) (by decide) (by decide)
    (by decide) (by decide)
  refine ⟨h.1, ?_, ?_, ?_, ?_⟩
  · have := h.2.2.1 0 (by decide)
    rw [show BUFFER_DATA + readU64 mWrite (payloadOff mWrite) % U24_MOD + 0 =
      BUFFER_DATA + 0 from by decide] at this
    rw [this]; decide
  · have := h.2.2.1 1 (by decide)
    rw [show BUFFER_DATA + readU64 mWrite (payloadOff mWrite) % U24_MOD + 1 =
      BUFFER_DATA + 1 from by decide] at this
    rw [this]; decide
  · have := h.2.2.2.2.1 (BUFFER_DATA + 2) (by decide)
    rw [this]; decide
  · have := h.2.2.2.2.2 0 (by decide)
    rw [this]; decide

/-- Claim C5: for every guard-passing Close invocation (discriminator 3)
with matching authority, the return code is 0, the buffer's lamports are
added (wrapping u64 add) into the signer's lamports, the buffer's lamports
and stored length become 0, and the 32 owner bytes become 0 (the
`write_volatile` store, modelled as the store it performs). -/
theorem claim_C5_close_postcondition (m : Mem) (h0 : readU8 m 0 = 2)
    (h1 : readU32 m SIGNER_HEADER = SIG_MUT_NODUP)
    (hd : discr m = 3) (ha : authMatch m = true) :
    (entrypoint m).2.1 = 0 ∧
    readU64 (entrypoint m).1 SIGNER_LAMPORTS =
      (readU64 m SIGNER_LAMPORTS + readU64 m BUFFER_LAMPORTS) % U64_MOD ∧
    readU64 (entrypoint m).1 BUFFER_LAMPORTS = 0 ∧
    readU64 (entrypoint m).1 BUFFER_SIZE = 0 ∧
    (∀ i, i < PUBKEY_LENGTH → (entrypoint m).1 (BUFFER_OWNER + i) = 0) := by
  rw [entrypoint_close h0 h1 hd ha]
  exact ⟨rfl, closeEffect_signer_lamports m, closeEffect_buffer_lamports m,
    closeEffect_size m, fun i hi => closeEffect_owner m hi⟩

/-- Witness for C5: closing a buffer with 7 lamports moves them to the
signer (100 becomes 107), zeroes the buffer's lamports and length, and
zeroes the owner byte that was 9. -/
theorem claim_C5_witness :
    readU64 (entrypoint mClose).1 SIGNER_LAMPORTS = 107 ∧
    readU64 (entrypoint mClose).1 BUFFER_LAMPORTS = 0 ∧
    readU64 (entrypoint mClose).1 BUFFER_SIZE = 0 ∧
    (entrypoint mClose).1 (BUFFER_OWNER + 0) = 0 := by
  have h := claim_C5_close_postcondition mClose (by decide) (by decide)
    (by decide) (by decide)
  refine ⟨?_, h.2.2.1, h.2.2.2.1, h.2.2.2.2 0 (by decide)⟩
  rw [h.2.1]; decide

/-- Claim C6: Close leaves the stored authority unchanged, so a second
Close invocation whose region carries the same signer key and the
post-Close authority and buffer lamports still passes the authority gate
and succeeds; it transfers zero lamports (the signer balance is unchanged)
and re-zeroes the already-zero lamport and length fields. -/
theorem claim_C6_close_after_close (m m2 : Mem) (h0 : readU8 m 0 = 2)
    (h1 : readU32 m SIGNER_HEADER = SIG_MUT_NODUP)
    (hd : discr m = 3) (ha : authMatch m = true)
    (h0b : readU8 m2 0 = 2) (h1b : readU32 m2 SIGNER_HEADER = SIG_MUT_NODUP)
    (hdb : discr m2 = 3)
    (hkey : ∀ i, i < PUBKEY_LENGTH → m2 (SIGNER_KEY + i) = m (SIGNER_KEY + i))
    (hauth : ∀ i, i < PUBKEY_LENGTH →
      m2 (BUFFER_AUTH + i) = (entrypoint m).1 (BUFFER_AUTH + i))
    (hlam : ∀ i, i < 8 →
      m2 (BUFFER_LAMPORTS + i) = (entrypoint m).1 (BUFFER_LAMPORTS + i)) :
    (∀ i, i < PUBKEY_LENGTH →
      (entrypoint m).1 (BUFFER_AUTH + i) = m (BUFFER_AUTH + i)) ∧
    authMatch m2 = true ∧
    (entrypoint m2).2.1 = 0 ∧
    readU64 (entrypoint m2).1 SIGNER_LAMPORTS = readU64 m2 SIGNER_LAMPORTS ∧
    readU64 (entrypoint m2).1 BUFFER_LAMPORTS = 0 ∧
    readU64 (entrypoint m2).1 BUFFER_SIZE = 0 := by
  have hclose1 : entrypoint m = (closeEffect m, 0, ["Close"]) :=
    entrypoint_close h0 h1 hd ha
  have hauth1 : ∀ i, i < PUBKEY_LENGTH →
      (entrypoint m).1 (BUFFER_AUTH + i) = m (BUFFER_AUTH + i) := by
    intro i hi
    rw [hclose1]
    simp only []
    refine closeEffect_frame m (Or.inr ?_) (Or.inr ?_)
    · simp only [SIGNER_LAMPORTS, BUFFER_AUTH]; omega
    · omega
  have ha2 : authMatch m2 = true := by
    rw [authMatch_iff]
    intro i hi
    have e1 : m2 (BUFFER_AUTH + i) = m (BUFFER_AUTH + i) :=
      (hauth i hi).trans (hauth1 i hi)
    have e2 := authMatch_iff.mp ha i hi
    simp only [readU8] at e2 ⊢
    rw [e1, e2, hkey i hi]
  have hlam1 : ∀ i, i < 8 →
      m2 (BUFFER_LAMPORTS + i) = closeEffect m (BUFFER_LAMPORTS + i) := by
    intro i hi
    rw [hlam i hi, hclose1]
  have hlam0 : readU64 m2 BUFFER_LAMPORTS = 0 := by
    rw [readU64_congr hlam1, closeEffect_buffer_lamports]
  have hclose2 : entrypoint m2 = (closeEffect m2, 0, ["Close"]) :=
    entrypoint_close h0b h1b hdb ha2
  rw [hclose2]
  simp only []
  refine ⟨hauth1, ha2, trivial, ?_, closeEffect_buffer_lamports m2, closeEffect_size m2⟩
  rw [closeEffect_signer_lamports m2, hlam0, Nat.add_zero,
    Nat.mod_eq_of_lt (readU64_lt m2 SIGNER_LAMPORTS)]

/-- Witness for C6: running Close on the concrete close scenario and then
again on the resulting region succeeds a second time and leaves the signer
balance at 107. -/
theorem claim_C6_witness :
    (entrypoint (entrypoint mClose).1).2.1 = 0 ∧
    readU64 (entrypoint (entrypoint mClose).1).1 SIGNER_LAMPORTS = 107 := by
  have h := claim_C6_close_after_close mClose (entrypoint mClose).1
    (by decide) (by decide) (by decide) (by decide)
    (by decide) (by decide) (by decide)
    (by decide) (fun i _ => rfl) (fun i _ => rfl)
  refine ⟨h.2.2.1, ?_⟩
  rw [h.2.2.2.1]
  decide

/-- Claim C7: for every input region, the instruction region is decoded at
byte offset 0x50c8 plus the buffer's stored length, rounded up to the next
8-byte alignment boundary; the 8-byte payload-length scalar is read there
and the 1-byte discriminator immediately after it. -/
theorem claim_C7_layout_decoder (m : Mem) :
    ixBase m = specAlignedOffset (IX_MIN_OFFSET + readU64 m BUFFER_SIZE) ∧
    ixBase m % ALIGNMENT = 0 ∧
    ixDataSize m = readU64 m (ixBase m) ∧
    discr m = readU8 m (ixBase m + 8) := by
  refine ⟨?_, ?_, rfl, rfl⟩
  · simp only [ixBase, specAlignedOffset, ALIGNMENT, IX_MIN_OFFSET]
    omega
  · simp only [ixBase, ALIGNMENT, IX_MIN_OFFSET]
    omega

/-- Claim C8: for every guard-passing invocation (count, flags and
authority checks pass) whose discriminator is outside 0, 1, 2, 3, the
program logs "Invalid IX", returns failure code 1, and mutates no memory. -/
theorem claim_C8_invalid_discriminator (m : Mem) (h0 : readU8 m 0 = 2)
    (h1 : readU32 m SIGNER_HEADER = SIG_MUT_NODUP) (ha : authMatch m = true)
    (hd : ¬(discr m = 0 ∨ discr m = 1 ∨ discr m = 2 ∨ discr m = 3)) :
    entrypoint m = (m, 1, ["Invalid IX"]) :=
  entrypoint_invalid h0 h1 (by omega) ha

/-- Witness for C8: the concrete region with discriminator 9 is rejected
with "Invalid IX" and left unchanged. -/
theorem claim_C8_witness :
    discr mInvalid = 9 ∧ entrypoint mInvalid = (mInvalid, 1, ["Invalid IX"]) :=
  ⟨by decide, claim_C8_invalid_discriminator mInvalid (by decide) (by decide)
    (by decide) (by decide)⟩

/-- Claim C9: the account-count guard inspects only the byte at offset 0
of the input region: the invocation is rejected for a wrong account count
exactly when that byte differs from 2, and since that byte is the 8-byte
count field modulo 256, any count congruent to 2 modulo 256 passes the
count check. -/
theorem claim_C9_count_low_byte (m : Mem) :
    ((entrypoint m).2.2 = ["Wrong number of accounts"] ↔ readU8 m 0 ≠ 2) ∧
    readU64 m 0 % 256 = readU8 m 0 ∧
    (readU64 m 0 % 256 = 2 →
      (entrypoint m).2.2 ≠ ["Wrong number of accounts"]) := by
  have h64 : readU64 m 0 % 256 = readU8 m 0 := by
    have h : readU64 m 0 = readU8 m 0 + 256 * readLE m 1 7 := rfl
    rw [h, Nat.add_mul_mod_self_left, Nat.mod_eq_of_lt (readU8_lt m 0)]
  have hiff : (entrypoint m).2.2 = ["Wrong number of accounts"] ↔
      readU8 m 0 ≠ 2 := by
    constructor
    · intro hlog hc
      by_cases h1 : readU32 m SIGNER_HEADER = SIG_MUT_NODUP
      · by_cases hg : 0 < discr m ∧ authMatch m = false
        · rw [entrypoint_auth_fail hc h1 hg.1 hg.2] at hlog
          simp at hlog
        · rcases Nat.eq_zero_or_pos (discr m) with h0d | hpos
          · rw [entrypoint_init hc h1 h0d] at hlog
            simp at hlog
          · have haT : authMatch m = true := by
              cases hb : authMatch m
              · exact absurd ⟨hpos, hb⟩ hg
              · rfl
            by_cases e1 : discr m = 1
            · rw [entrypoint_assign hc h1 e1 haT] at hlog
              simp at hlog
            · by_cases e2 : discr m = 2
              · rw [entrypoint_write_branch hc h1 e2 haT] at hlog
                simp at hlog
              · by_cases e3 : discr m = 3
                · rw [entrypoint_close hc h1 e3 haT] at hlog
                  simp at hlog
                · rw [entrypoint_invalid hc h1 (by omega) haT] at hlog
                  simp at hlog
      · rw [entrypoint_flags_fail hc h1] at hlog
        simp at hlog
    · intro h
      rw [entrypoint_count_fail h]
  refine ⟨hiff, h64, fun hcnt hlog => ?_⟩
  rw [h64] at hcnt
  exact hiff.mp hlog hcnt

/-- Witness for C9: the concrete region whose 8-byte account count is 258
is not rejected by the count check. -/
theorem claim_C9_witness :
    readU64 mCount258 0 = 258 ∧
    (entrypoint mCount258).2.2 ≠ ["Wrong number of accounts"] := by
  refine ⟨by decide, ?_⟩
  exact (claim_C9_count_low_byte mCount258).2.2 (by decide)

/-- Claim C10: the lamport transfer in Close is an unchecked wrapping
64-bit addition: the resulting signer balance is the sum of the previous
signer and buffer balances modulo 2^64, with no failure path on
overflow. -/
theorem claim_C10_lamport_overflow (m : Mem) (h0 : readU8 m 0 = 2)
    (h1 : readU32 m SIGNER_HEADER = SIG_MUT_NODUP)
    (hd : discr m = 3) (ha : authMatch m = true) :
    readU64 (entrypoint m).1 SIGNER_LAMPORTS =
      (readU64 m SIGNER_LAMPORTS + readU64 m BUFFER_LAMPORTS) % U64_MOD := by
  rw [entrypoint_close h0 h1 hd ha]
  exact closeEffect_signer_lamports m

/-- Witness for C10: closing with signer balance 2^64 - 1 and buffer
balance 5 wraps the signer balance to 4 and still succeeds. -/
theorem claim_C10_witness :
    readU64 mOverflow SIGNER_LAMPORTS = U64_MOD - 1 ∧
    readU64 mOverflow BUFFER_LAMPORTS = 5 ∧
    readU64 (entrypoint mOverflow).1 SIGNER_LAMPORTS = 4 := by
  refine ⟨by decide, by decide, ?_⟩
  rw [claim_C10_lamport_overflow mOverflow (by decide) (by decide)
    (by decide) (by decide)]
  decide

end Chadbuffer
